import Mathlib

/-!
Shallow embedding of `mhc_lab/iedb/parsers.py`: the MHC allele-name
catalog (`IedbMhcNamesParser`), the streaming ligand-data normalizer and
the table filter (`IedbMhcDataParser`).

Strings model Python strings; `Option String` models a value that may be
Python `None` (or a pandas `NaN` cell, which the code treats the same way
through `pd.isna` / `notna` / failed `.str` comparisons).
-/

set_option autoImplicit false

namespace MhcLab

/-- `IedbFilter` dataclass: a partially specified query; `none` fields
impose no constraint, the two booleans are presence flags. -/
structure IedbFilter where
  mhc_name : Option String := none
  mhc_class : Option String := none
  chain_1 : Option String := none
  chain_2 : Option String := none
  chain_any : Option String := none
  restriction_level : Option String := none
  organism_id : Option String := none
  organism : Option String := none
  qualitative_data : Bool := false
  quantitative_data : Bool := false
  deriving Repr, DecidableEq

/-- `IedbMhcName`: one catalog record.  `name` is read from the
`DisplayedRestriction` element's text, which `xml.etree` reports as
`None` for an empty element, so it is an `Option`. -/
structure IedbMhcName where
  name : Option String
  mhc_class : Option String
  chain_1_name : Option String
  chain_2_name : Option String
  aliases : List String
  organism : Option String
  organism_id : Option String
  restriction_level : Option String
  deriving Repr, DecidableEq

/-- The catalog state `self.names`: a Python dict keyed by
`restriction_id` (an element text, hence `Option String`), modelled as an
association list in insertion order. -/
abbrev Catalog := List (Option String × IedbMhcName)

/-- `list(self.names.values())` in insertion order. -/
def Catalog.values (c : Catalog) : List IedbMhcName := c.map Prod.snd

/-- Python `str.lower()` (character-wise lowercasing). -/
def pyLower (s : String) : String := ⟨s.data.map Char.toLower⟩

/-- Python `_norm`: lowercase a string, pass `None` through. -/
def pyNorm (v : Option String) : Option String := v.map pyLower

/-- The `match` closure of `IedbMhcNamesParser.find_all`: every non-`None`
filter attribute must match, `mhc_name` by canonical name or alias
(case-insensitive), `organism_id` by exact string comparison. -/
def matchFilter (f : IedbFilter) (item : IedbMhcName) : Bool :=
  let name := pyNorm item.name
  let mhc_class := pyNorm item.mhc_class
  let c1 := pyNorm item.chain_1_name
  let c2 := pyNorm item.chain_2_name
  let rl := pyNorm item.restriction_level
  let org := pyNorm item.organism
  (match pyNorm f.mhc_name with
   | none => true
   | some q => name == some q || (item.aliases.map pyLower).contains q) &&
  (match pyNorm f.mhc_class with
   | none => true
   | some q => mhc_class == some q) &&
  (match pyNorm f.chain_1 with
   | none => true
   | some q => c1 == some q) &&
  (match pyNorm f.chain_2 with
   | none => true
   | some q => c2 == some q) &&
  (match pyNorm f.chain_any with
   | none => true
   | some q => c1 == some q || c2 == some q) &&
  (match pyNorm f.restriction_level with
   | none => true
   | some q => rl == some q) &&
  (match pyNorm f.organism with
   | none => true
   | some q => org == some q) &&
  (match f.organism_id with
   | none => true
   | some q => item.organism_id == some q)

/-- `IedbMhcNamesParser.find_all`: with a `None` filter return all
candidates; otherwise keep the candidates satisfying `matchFilter`,
in candidate order. -/
def find_all (c : Catalog) (f : Option IedbFilter) : List IedbMhcName :=
  let candidates := c.values
  match f with
  | none => candidates
  | some f => candidates.filter (matchFilter f)

/-- `IedbMhcNamesParser.find_one`: `None` on no match, the single match,
or `ValueError("Multiple MHC names found for filter")` on more than one. -/
def find_one (c : Catalog) (f : IedbFilter) : Except String (Option IedbMhcName) :=
  match find_all c (some f) with
  | [] => Except.ok none
  | [m] => Except.ok (some m)
  | _ :: _ :: _ => Except.error "Multiple MHC names found for filter"

/-! ### Registry parsing (`IedbMhcNamesParser.parse`) -/

/-- An XML element as `xml.etree` reports it: its text is `None` for an
empty element, or the contained string. -/
structure XmlElem where
  text : Option String
  deriving Repr, DecidableEq

/-- One `<MhcAlleleName>` registry entry: each field is `none` when the
sub-element is absent (then `find(...)` returns `None` in Python), and
`some e` when present with text `e.text`. -/
structure RegistryEntry where
  mhcAlleleRestrictionId : Option XmlElem := none
  displayedRestriction : Option XmlElem := none
  classElem : Option XmlElem := none
  chain1Name : Option XmlElem := none
  chain2Name : Option XmlElem := none
  organism : Option XmlElem := none
  organismNcbiTaxId : Option XmlElem := none
  restrictionLevel : Option XmlElem := none
  synonyms : Option XmlElem := none
  deriving Repr, DecidableEq

/-- `elem.find(tag).text if elem.find(tag) is not None else None`. -/
def optText (e : Option XmlElem) : Option String := e.bind XmlElem.text

/-- Python `text.split('|')` on a non-empty string. -/
def pySplitBar (s : String) : List String := s.splitOn "|"

/-- `aliases`: `synonyms_elem.text.split('|')` when the element exists and
its text is truthy (non-`None`, non-empty), else `[]`. -/
def parseAliases (syn : Option XmlElem) : List String :=
  match optText syn with
  | none => []
  | some t => if t = "" then [] else pySplitBar t

/-- The loop body of `IedbMhcNamesParser.parse` for one entry.
`find('MhcAlleleRestrictionId').text` and
`find('DisplayedRestriction').text` raise `AttributeError` when the
element is absent (`find` returned `None`); that is the `Except.error`
case.  Note that a present-but-empty element yields `text = None`
without raising. -/
def parseEntry (e : RegistryEntry) : Except String (Option String × IedbMhcName) :=
  match e.mhcAlleleRestrictionId with
  | none => Except.error "AttributeError"
  | some rid =>
    match e.displayedRestriction with
    | none => Except.error "AttributeError"
    | some nameElem =>
      Except.ok (rid.text,
        { name := nameElem.text
          mhc_class := optText e.classElem
          chain_1_name := optText e.chain1Name
          chain_2_name := optText e.chain2Name
          aliases := parseAliases e.synonyms
          organism := optText e.organism
          organism_id := optText e.organismNcbiTaxId
          restriction_level := optText e.restrictionLevel })

/-- Python-dict assignment `self.names[k] = v`: replace in place when the
key exists, else append (insertion order preserved). -/
def dictInsert (d : Catalog) (k : Option String) (v : IedbMhcName) : Catalog :=
  if d.any (fun p => p.1 == k) then
    d.map (fun p => if p.1 == k then (k, v) else p)
  else d ++ [(k, v)]

/-- `IedbMhcNamesParser.parse` over the entry list, starting from state
`d` (`self.names`).  Returns the state of `self.names` afterwards and
`some msg` when an exception escaped: the dict keeps every entry stored
before the failing one, because the loop mutates `self.names` in place. -/
def parseNames (d : Catalog) : List RegistryEntry → Catalog × Option String
  | [] => (d, none)
  | e :: es =>
    match parseEntry e with
    | Except.error msg => (d, some msg)
    | Except.ok (k, v) => parseNames (dictInsert d k v) es

/-! ### Ligand-data parsing (`IedbMhcDataParser.parse`)

A CSV chunk produced by `pd.read_csv(..., chunksize=...)` carries a
continuing `RangeIndex`: chunk `k` is labelled `o, o+1, ..., o+n-1` where
`o` is the number of rows already read.  `parse` builds each processed
chunk as `pd.DataFrame(selected_data)` from a dict of Series, and pandas
aligns those Series on the sorted union of their indexes.  A present
source column keeps the chunk labels `o..o+n-1`; the `None` filler for a
missing column (`pd.Series([None] * len(chunk))`) has a fresh `0`-based
index.  A label that a column does not carry reads as `NaN`.  Both `None`
and `NaN` are modelled as `none`. -/

/-- A raw input row restricted to the five mapped source columns
(the values those `(group, sub-label)` pairs hold, when present). -/
structure RawRow where
  mhcName : Option String := none
  qualitative : Option String := none
  quantitative : Option String := none
  assayResponse : Option String := none
  epitope : Option String := none
  deriving Repr, DecidableEq

/-- Which of the five mapped `(group, sub-label)` column pairs exist in
the CSV header (`col_tuple in chunk.columns`; the header is parsed once,
so presence is the same for every chunk). -/
structure ColPresence where
  hasMhcName : Bool := true
  hasQualitative : Bool := true
  hasQuantitative : Bool := true
  hasAssayResponse : Bool := true
  hasEpitope : Bool := true
  deriving Repr, DecidableEq

/-- One selected column as `(index label, value)` pairs: a present column
is the chunk's Series with labels `o..o+n-1`; a missing one is the filler
`pd.Series([None] * n)` with labels `0..n-1`. -/
def chunkCol (o : Nat) (rows : List RawRow) (present : Bool)
    (f : RawRow → Option String) : List (Nat × Option String) :=
  if present then (rows.map f).enum.map (fun p => (o + p.1, p.2))
  else (List.range rows.length).map (fun i => (i, (none : Option String)))

/-- Insert into a sorted duplicate-free list of labels. -/
def insSorted (i : Nat) : List Nat → List Nat
  | [] => [i]
  | j :: js =>
    if i < j then i :: j :: js
    else if i = j then j :: js
    else j :: insSorted i js

/-- Sorted union of index labels (pandas aligns a dict of Series on the
sorted union of their indexes). -/
def sortedDedup (l : List Nat) : List Nat := l.foldr insSorted []

/-- Read a column at a label: `NaN` (modelled `none`) when the column
does not carry the label. -/
def lookupIdx (col : List (Nat × Option String)) (i : Nat) : Option String :=
  match col.find? (fun p => p.1 == i) with
  | some p => p.2
  | none => none

/-- The aligned rows of `pd.DataFrame(selected_data)` for one chunk with
start label `o`. -/
def selectedRows (cp : ColPresence) (o : Nat) (rows : List RawRow) : List RawRow :=
  let cM := chunkCol o rows cp.hasMhcName RawRow.mhcName
  let cQl := chunkCol o rows cp.hasQualitative RawRow.qualitative
  let cQn := chunkCol o rows cp.hasQuantitative RawRow.quantitative
  let cR := chunkCol o rows cp.hasAssayResponse RawRow.assayResponse
  let cE := chunkCol o rows cp.hasEpitope RawRow.epitope
  let idx := sortedDedup (cM.map Prod.fst ++ cQl.map Prod.fst ++ cQn.map Prod.fst
    ++ cR.map Prod.fst ++ cE.map Prod.fst)
  idx.map (fun i =>
    { mhcName := lookupIdx cM i
      qualitative := lookupIdx cQl i
      quantitative := lookupIdx cQn i
      assayResponse := lookupIdx cR i
      epitope := lookupIdx cE i })

/-- A normalized output row, fields in the `output_data_columns` order. -/
structure AssayRecord where
  mhc_name : Option String
  mhc_class : Option String
  qualitative_data : Option String
  quantitative_data : Option String
  assay_response : Option String
  species : Option String
  epitope : Option String
  deriving Repr, DecidableEq

/-- `IedbFilter(mhc_name=str(mhc_name))`: only the name constraint set. -/
def nameQuery (s : String) : IedbFilter := { mhc_name := some s }

/-- The per-value resolution inside the `parse` loop: `None`/`NaN` is
passed through with null class/species; a unique catalog match
contributes its canonical name, class and organism; no match or a
`ValueError` (ambiguity) preserves the raw value with null
class/species. -/
def resolveName (c : Catalog) (raw : Option String) :
    Option String × Option String × Option String :=
  match raw with
  | none => (none, none, none)
  | some s =>
    match find_one c (nameQuery s) with
    | Except.ok (some obj) => (obj.name, obj.mhc_class, obj.organism)
    | Except.ok none => (some s, none, none)
    | Except.error _ => (some s, none, none)

/-- Build one output row from one selected row. -/
def normalizeSel (c : Catalog) (r : RawRow) : AssayRecord :=
  let res := resolveName c r.mhcName
  { mhc_name := res.1
    mhc_class := res.2.1
    qualitative_data := r.qualitative
    quantitative_data := r.quantitative
    assay_response := r.assayResponse
    species := res.2.2
    epitope := r.epitope }

/-- One loop iteration of `IedbMhcDataParser.parse`: select and align the
mapped columns, then normalize row by row. -/
def processChunk (c : Catalog) (cp : ColPresence) (o : Nat)
    (rows : List RawRow) : List AssayRecord :=
  (selectedRows cp o rows).map (normalizeSel c)

/-- Chunk splitting, fuelled by the row count (each step consumes at
least one row, so the fuel never runs out on a non-empty list). -/
def splitChunksFuel (s : Nat) : Nat → List RawRow → List (List RawRow)
  | _, [] => []
  | 0, l => [l]
  | fuel + 1, l => l.take (s + 1) :: splitChunksFuel s fuel (l.drop (s + 1))

/-- Split into chunks of `s + 1` rows each (the `+ 1` keeps the chunk
size positive, as `pd.read_csv` requires). -/
def splitChunks (s : Nat) (l : List RawRow) : List (List RawRow) :=
  splitChunksFuel s l.length l

/-- Attach each chunk's starting `RangeIndex` label. -/
def withOffsets (o : Nat) : List (List RawRow) → List (Nat × List RawRow)
  | [] => []
  | c :: cs => (o, c) :: withOffsets (o + c.length) cs

/-- `IedbMhcDataParser.parse` on `rows` read in chunks of `s + 1`:
process each chunk and concatenate (`pd.concat(..., ignore_index=True)`
keeps chunk order and row order within a chunk). -/
def parseChunked (c : Catalog) (cp : ColPresence) (s : Nat)
    (rows : List RawRow) : List AssayRecord :=
  ((withOffsets 0 (splitChunks s rows)).map
    (fun p => processChunk c cp p.1 p.2)).flatten

/-! ### Table filtering (`IedbMhcDataParser.filter`) -/

/-- A pandas `col.str.lower() == q.lower()` cell comparison: `NaN`/`None`
cells lower to `NaN` and compare unequal to any string. -/
def lowerEq (cell : Option String) (q : String) : Bool :=
  match cell with
  | some s => pyLower s == pyLower q
  | none => false

/-- The `mhc_name` constraint step. -/
def nameStep (f : IedbFilter) (data : List AssayRecord) : List AssayRecord :=
  match f.mhc_name with
  | none => data
  | some q => data.filter (fun r => lowerEq r.mhc_name q)

/-- The `mhc_class` constraint step. -/
def classStep (f : IedbFilter) (data : List AssayRecord) : List AssayRecord :=
  match f.mhc_class with
  | none => data
  | some q => data.filter (fun r => lowerEq r.mhc_class q)

/-- The `organism` constraint step (matches the `species` column). -/
def orgStep (f : IedbFilter) (data : List AssayRecord) : List AssayRecord :=
  match f.organism with
  | none => data
  | some q => data.filter (fun r => lowerEq r.species q)

/-- First occurrences not already seen, in order. -/
def pyUniqueAux (seen : List String) : List String → List String
  | [] => []
  | x :: xs =>
    if seen.contains x then pyUniqueAux seen xs
    else x :: pyUniqueAux (x :: seen) xs

/-- pandas `Series.unique()` after `dropna()`: first occurrences, in
order. -/
def pyUnique (l : List String) : List String := pyUniqueAux [] l

/-- The catalog query built in the chain pass: the name plus the
requested chain constraints, nothing else. -/
def chainQuery (f : IedbFilter) (nm : String) : IedbFilter :=
  { mhc_name := some nm
    chain_1 := f.chain_1
    chain_2 := f.chain_2
    chain_any := f.chain_any }

/-- A name passes the chain pass when `find_one` neither raises nor
returns `None` (the `except ... continue` drops ambiguous names). -/
def chainNameOk (c : Catalog) (f : IedbFilter) (nm : String) : Bool :=
  match find_one c (chainQuery f nm) with
  | Except.ok (some _) => true
  | _ => false

/-- `filtered_data['mhc_name'].dropna().unique()` restricted to the names
`find_one` accepts. -/
def validNames (c : Catalog) (f : IedbFilter) (data : List AssayRecord) : List String :=
  (pyUnique (data.filterMap AssayRecord.mhc_name)).filter (chainNameOk c f)

/-- Whether any chain constraint is requested. -/
def chainActive (f : IedbFilter) : Bool :=
  f.chain_1.isSome || f.chain_2.isSome || f.chain_any.isSome

/-- The chain pass: keep rows whose `mhc_name` is in the surviving name
list; with no survivor the result is a fresh empty table. -/
def chainStep (c : Catalog) (f : IedbFilter) (data : List AssayRecord) : List AssayRecord :=
  if chainActive f then
    let valid := validNames c f data
    if valid.isEmpty then []
    else data.filter (fun r =>
      match r.mhc_name with
      | some nm => valid.contains nm
      | none => false)
  else data

/-- `notna() & (col != '') & (col != 'null')` on one cell. -/
def presentCell (cell : Option String) : Bool :=
  match cell with
  | some s => !(s == "") && !(s == "null")
  | none => false

/-- The qualitative presence-flag step. -/
def qualStep (f : IedbFilter) (data : List AssayRecord) : List AssayRecord :=
  if f.qualitative_data then data.filter (fun r => presentCell r.qualitative_data)
  else data

/-- The quantitative presence-flag step. -/
def quantStep (f : IedbFilter) (data : List AssayRecord) : List AssayRecord :=
  if f.quantitative_data then data.filter (fun r => presentCell r.quantitative_data)
  else data

/-- `IedbMhcDataParser.filter`: the empty-table guard, then the
constraint steps in source order.  The `organism_id` branch is `pass` in
the source, hence absent here. -/
def filterData (c : Catalog) (data : List AssayRecord) (f : IedbFilter) : List AssayRecord :=
  if data.isEmpty then []
  else quantStep f (qualStep f (chainStep c f (orgStep f (classStep f (nameStep f data)))))

/-! ### Row predicates equivalent to the filter steps -/

/-- Row predicate of the `mhc_name` step. -/
def namePred (f : IedbFilter) (r : AssayRecord) : Bool :=
  match f.mhc_name with
  | none => true
  | some q => lowerEq r.mhc_name q

/-- Row predicate of the `mhc_class` step. -/
def classPred (f : IedbFilter) (r : AssayRecord) : Bool :=
  match f.mhc_class with
  | none => true
  | some q => lowerEq r.mhc_class q

/-- Row predicate of the `organism` step. -/
def orgPred (f : IedbFilter) (r : AssayRecord) : Bool :=
  match f.organism with
  | none => true
  | some q => lowerEq r.species q

/-- Row predicate of the chain pass: with a chain constraint requested,
the row's name must be non-null and pass `find_one` on the chain
query. -/
def chainPred (c : Catalog) (f : IedbFilter) (r : AssayRecord) : Bool :=
  if chainActive f then
    match r.mhc_name with
    | some nm => chainNameOk c f nm
    | none => false
  else true

/-- Row predicate of the qualitative presence flag. -/
def qualPred (f : IedbFilter) (r : AssayRecord) : Bool :=
  !f.qualitative_data || presentCell r.qualitative_data

/-- Row predicate of the quantitative presence flag. -/
def quantPred (f : IedbFilter) (r : AssayRecord) : Bool :=
  !f.quantitative_data || presentCell r.quantitative_data

/-- The whole filter as one row predicate (nested as the step
composition produces it). -/
def totalPred (c : Catalog) (f : IedbFilter) (r : AssayRecord) : Bool :=
  quantPred f r && qualPred f r && chainPred c f r &&
    orgPred f r && classPred f r && namePred f r

/-! ### Concrete example data (for witnesses and counterexamples),
mirroring the fixtures of `tests/test_normalization.py` -/

/-- The `HLA-A*02:01` record of the test fixture catalog. -/
def recA0201 : IedbMhcName :=
  { name := some "HLA-A*02:01"
    mhc_class := some "I"
    chain_1_name := some "HLA-A*02:01"
    chain_2_name := none
    aliases := ["HLA-A2", "A*02:01", "A2"]
    organism := some "Human"
    organism_id := some "9606"
    restriction_level := some "Allele" }

/-- The `H2-Kb` record of the test fixture catalog. -/
def recKb : IedbMhcName :=
  { name := some "H2-Kb"
    mhc_class := some "I"
    chain_1_name := some "H2-Kb"
    chain_2_name := none
    aliases := ["Kb", "H-2Kb"]
    organism := some "Mouse"
    organism_id := some "10090"
    restriction_level := some "Allele" }

/-- A two-record fixture catalog. -/
def catEx : Catalog := [(some "1", recA0201), (some "2", recKb)]

/-- A raw row carrying the alias `HLA-A2`. -/
def rowAlias : RawRow := { mhcName := some "HLA-A2", qualitative := some "Positive" }

/-- A raw row named `A`. -/
def rowA : RawRow := { mhcName := some "A", qualitative := some "q1" }

/-- A raw row named `B`. -/
def rowB : RawRow := { mhcName := some "B", qualitative := some "q2" }

/-- Header with the `('Epitope', 'Name')` pair absent. -/
def cpNoEpi : ColPresence := { hasEpitope := false }

/-- A normalized row resolved to `HLA-A*02:01`. -/
def assayA : AssayRecord :=
  { mhc_name := some "HLA-A*02:01"
    mhc_class := some "I"
    qualitative_data := some "Positive"
    quantitative_data := none
    assay_response := none
    species := some "Human"
    epitope := none }

/-- An unresolved normalized row. -/
def assayU : AssayRecord :=
  { mhc_name := some "UnknownMhc"
    mhc_class := none
    qualitative_data := none
    quantitative_data := none
    assay_response := none
    species := none
    epitope := none }

/-- The normalized row of `rowA` against an empty catalog with the
epitope column missing. -/
def outA : AssayRecord :=
  { mhc_name := some "A"
    mhc_class := none
    qualitative_data := some "q1"
    quantitative_data := none
    assay_response := none
    species := none
    epitope := none }

/-- A registry entry whose `DisplayedRestriction` element is present but
empty (its text is `None`). -/
def entryEmptyName : RegistryEntry :=
  { mhcAlleleRestrictionId := some ⟨some "7"⟩
    displayedRestriction := some ⟨none⟩ }

/-- A registry entry with the `DisplayedRestriction` element absent. -/
def entryNoName : RegistryEntry :=
  { mhcAlleleRestrictionId := some ⟨some "8"⟩ }

end MhcLab

namespace MhcLab

theorem mem_pyUniqueAux {a : String} {l seen : List String} :
    a ∈ pyUniqueAux seen l ↔ a ∈ l ∧ a ∉ seen := by
  induction l generalizing seen with
  | nil => simp [pyUniqueAux]
  | cons x xs ih =>
    rw [pyUniqueAux]
    by_cases hx : seen.contains x
    · rw [if_pos hx, ih]
      have hxs : x ∈ seen := List.elem_iff.mp hx
      constructor
      · rintro ⟨h1, h2⟩
        exact ⟨List.mem_cons_of_mem x h1, h2⟩
      · rintro ⟨h1, h2⟩
        rcases List.mem_cons.mp h1 with h | h
        · exact absurd (h ▸ hxs) h2
        · exact ⟨h, h2⟩
    · rw [if_neg hx]
      have hxs : x ∉ seen := fun h => hx (List.elem_iff.mpr h)
      by_cases hax : a = x
      · subst hax
        simp [hxs]
      · simp [List.mem_cons, ih, hax]

theorem mem_pyUnique {a : String} {l : List String} : a ∈ pyUnique l ↔ a ∈ l := by
  rw [pyUnique, mem_pyUniqueAux]
  simp

theorem mem_validNames {c : Catalog} {f : IedbFilter} {data : List AssayRecord} {nm : String} :
    nm ∈ validNames c f data ↔
      nm ∈ data.filterMap AssayRecord.mhc_name ∧ chainNameOk c f nm = true := by
  simp [validNames, List.mem_filter, mem_pyUnique]

theorem chainStep_eq_filter (c : Catalog) (f : IedbFilter) (data : List AssayRecord) :
    chainStep c f data = data.filter (chainPred c f) := by
  unfold chainStep chainPred
  by_cases hca : chainActive f = true
  · simp only [hca, if_true]
    by_cases hv : (validNames c f data).isEmpty
    · rw [if_pos hv]
      symm
      rw [List.filter_eq_nil_iff]
      intro r hr
      cases hm : r.mhc_name with
      | none => simp
      | some nm =>
        simp only [Bool.not_eq_true]
        cases hok : chainNameOk c f nm with
        | false => rfl
        | true =>
          exfalso
          have hmem : nm ∈ validNames c f data :=
            mem_validNames.mpr ⟨List.mem_filterMap.mpr ⟨r, hr, hm⟩, hok⟩
          rw [List.isEmpty_iff] at hv
          simp [hv] at hmem
    · rw [if_neg hv]
      refine List.filter_congr ?_
      intro r hr
      cases hm : r.mhc_name with
      | none => rfl
      | some nm =>
        rw [Bool.eq_iff_iff]
        constructor
        · intro h
          exact (mem_validNames.mp (List.elem_iff.mp h)).2
        · intro h
          exact List.elem_iff.mpr
            (mem_validNames.mpr ⟨List.mem_filterMap.mpr ⟨r, hr, hm⟩, h⟩)
  · simp only [Bool.not_eq_true] at hca
    simp [hca]

theorem nameStep_eq_filter (f : IedbFilter) (data : List AssayRecord) :
    nameStep f data = data.filter (namePred f) := by
  unfold nameStep namePred
  cases hq : f.mhc_name <;> simp

theorem classStep_eq_filter (f : IedbFilter) (data : List AssayRecord) :
    classStep f data = data.filter (classPred f) := by
  unfold classStep classPred
  cases hq : f.mhc_class <;> simp

theorem orgStep_eq_filter (f : IedbFilter) (data : List AssayRecord) :
    orgStep f data = data.filter (orgPred f) := by
  unfold orgStep orgPred
  cases hq : f.organism <;> simp

theorem qualStep_eq_filter (f : IedbFilter) (data : List AssayRecord) :
    qualStep f data = data.filter (qualPred f) := by
  unfold qualStep qualPred
  cases hq : f.qualitative_data <;> simp

theorem quantStep_eq_filter (f : IedbFilter) (data : List AssayRecord) :
    quantStep f data = data.filter (quantPred f) := by
  unfold quantStep quantPred
  cases hq : f.quantitative_data <;> simp

theorem filterData_eq_filter (c : Catalog) (data : List AssayRecord) (f : IedbFilter) :
    filterData c data f = data.filter (totalPred c f) := by
  unfold filterData
  by_cases hd : data = []
  · simp [hd]
  · rw [if_neg (by simp [hd])]
    rw [nameStep_eq_filter, classStep_eq_filter, orgStep_eq_filter, chainStep_eq_filter,
      qualStep_eq_filter, quantStep_eq_filter]
    rw [List.filter_filter, List.filter_filter, List.filter_filter, List.filter_filter,
      List.filter_filter]
    rfl

end MhcLab

namespace MhcLab

theorem chainNameOk_eq_lengthOne (c : Catalog) (f : IedbFilter) (nm : String) :
    chainNameOk c f nm = ((find_all c (some (chainQuery f nm))).length == 1) := by
  unfold chainNameOk find_one
  rcases h : find_all c (some (chainQuery f nm)) with _ | ⟨a, _ | ⟨b, rest⟩⟩ <;> simp [h]

/-- C2: `find_one` returns `None` on no match, the unique record on
exactly one match, and raises `ValueError` exactly when more than one
record matches the filter. -/
theorem find_one_strictness (c : Catalog) (f : IedbFilter) :
    (find_all c (some f) = [] → find_one c f = Except.ok none)
    ∧ (∀ m, find_all c (some f) = [m] → find_one c f = Except.ok (some m))
    ∧ (1 < (find_all c (some f)).length ↔
        find_one c f = Except.error "Multiple MHC names found for filter") := by
  unfold find_one
  rcases h : find_all c (some f) with _ | ⟨a, _ | ⟨b, rest⟩⟩ <;> simp [h]

/-- Witness for C2 at the fixture catalog: the alias query `h-2kb` has
exactly one match and `find_one` returns it. -/
theorem find_one_strictness_witness :
    find_all catEx (some { mhc_name := some "h-2kb" }) = [recKb]
    ∧ find_one catEx { mhc_name := some "h-2kb" } = Except.ok (some recKb) :=
  ⟨by decide, (find_one_strictness catEx { mhc_name := some "h-2kb" }).2.1 recKb (by decide)⟩

/-- C10: a filtered `find_all` equals the null-query full scan filtered
in place, hence yields matches in catalog insertion order (a sublist of
the full scan). -/
theorem find_all_insertion_order (c : Catalog) (f : IedbFilter) :
    find_all c (some f) = (find_all c none).filter (matchFilter f)
    ∧ (find_all c (some f)).Sublist (find_all c none) :=
  ⟨rfl, List.filter_sublist _⟩

/-- C1: per normalized row, a null raw identifier is preserved with null
class/species; a unique catalog match (by name or alias,
case-insensitive) contributes the record's canonical name, class and
organism; no match or an ambiguous match preserves the raw string with
null class/species and never aborts. -/
theorem normalize_row_resolution (c : Catalog) (r : RawRow) :
    (r.mhcName = none →
      (normalizeSel c r).mhc_name = none ∧ (normalizeSel c r).mhc_class = none
        ∧ (normalizeSel c r).species = none)
    ∧ (∀ s rec, r.mhcName = some s → find_all c (some (nameQuery s)) = [rec] →
      (normalizeSel c r).mhc_name = rec.name ∧ (normalizeSel c r).mhc_class = rec.mhc_class
        ∧ (normalizeSel c r).species = rec.organism)
    ∧ (∀ s, r.mhcName = some s →
        (find_all c (some (nameQuery s)) = [] ∨ 1 < (find_all c (some (nameQuery s))).length) →
      (normalizeSel c r).mhc_name = some s ∧ (normalizeSel c r).mhc_class = none
        ∧ (normalizeSel c r).species = none) := by
  refine ⟨?_, ?_, ?_⟩
  · intro h
    simp [normalizeSel, resolveName, h]
  · intro s rec hs hfa
    simp [normalizeSel, resolveName, hs, find_one, hfa]
  · intro s hs hcase
    rcases hcase with h | h
    · simp [normalizeSel, resolveName, hs, find_one, h]
    · rcases hfa : find_all c (some (nameQuery s)) with _ | ⟨a, _ | ⟨b, rest⟩⟩
      · rw [hfa] at h; simp at h
      · rw [hfa] at h; simp at h
      · simp [normalizeSel, resolveName, hs, find_one, hfa]

/-- Witness for C1: the alias `HLA-A2` resolves uniquely to
`HLA-A*02:01` and the output row carries that record's name, class and
organism. -/
theorem normalize_row_resolution_witness :
    find_all catEx (some (nameQuery "HLA-A2")) = [recA0201]
    ∧ (normalizeSel catEx rowAlias).mhc_name = recA0201.name
    ∧ (normalizeSel catEx rowAlias).mhc_class = recA0201.mhc_class
    ∧ (normalizeSel catEx rowAlias).species = recA0201.organism :=
  ⟨by decide, (normalize_row_resolution catEx rowAlias).2.1 "HLA-A2" recA0201 rfl (by decide)⟩

/-- C9: applying the same filter a second time to its own output changes
nothing. -/
theorem filter_idempotent (c : Catalog) (data : List AssayRecord) (f : IedbFilter) :
    filterData c (filterData c data f) f = filterData c data f := by
  rw [filterData_eq_filter c data f, filterData_eq_filter c (data.filter (totalPred c f)) f,
    List.filter_filter]
  exact List.filter_congr fun r _ => Bool.and_self _

/-- C7: the `organism_id` constraint never filters: any value behaves as
the unset query. -/
theorem organism_id_is_no_op (c : Catalog) (data : List AssayRecord) (f : IedbFilter)
    (v : Option String) :
    filterData c data { f with organism_id := v } =
      filterData c data { f with organism_id := none } := rfl

theorem totalPred_qual_split (c : Catalog) (f : IedbFilter) (r : AssayRecord) :
    totalPred c { f with qualitative_data := true } r
      = (presentCell r.qualitative_data && totalPred c { f with qualitative_data := false } r) := by
  have hq1 : qualPred { f with qualitative_data := true } r = presentCell r.qualitative_data := by
    simp [qualPred]
  have hq0 : qualPred { f with qualitative_data := false } r = true := by
    simp [qualPred]
  have hqn : quantPred { f with qualitative_data := true } r
      = quantPred { f with qualitative_data := false } r := rfl
  have hcp : chainPred c { f with qualitative_data := true } r
      = chainPred c { f with qualitative_data := false } r := rfl
  have hop : orgPred { f with qualitative_data := true } r
      = orgPred { f with qualitative_data := false } r := rfl
  have hclp : classPred { f with qualitative_data := true } r
      = classPred { f with qualitative_data := false } r := rfl
  have hnp : namePred { f with qualitative_data := true } r
      = namePred { f with qualitative_data := false } r := rfl
  simp only [totalPred, hq1, hq0, hqn, hcp, hop, hclp, hnp]
  cases presentCell r.qualitative_data <;>
    simp [Bool.and_assoc, Bool.and_comm, Bool.and_left_comm]

theorem totalPred_quant_split (c : Catalog) (f : IedbFilter) (r : AssayRecord) :
    totalPred c { f with quantitative_data := true } r
      = (presentCell r.quantitative_data && totalPred c { f with quantitative_data := false } r) := by
  have hq1 : quantPred { f with quantitative_data := true } r = presentCell r.quantitative_data := by
    simp [quantPred]
  have hq0 : quantPred { f with quantitative_data := false } r = true := by
    simp [quantPred]
  have hql : qualPred { f with quantitative_data := true } r
      = qualPred { f with quantitative_data := false } r := rfl
  have hcp : chainPred c { f with quantitative_data := true } r
      = chainPred c { f with quantitative_data := false } r := rfl
  have hop : orgPred { f with quantitative_data := true } r
      = orgPred { f with quantitative_data := false } r := rfl
  have hclp : classPred { f with quantitative_data := true } r
      = classPred { f with quantitative_data := false } r := rfl
  have hnp : namePred { f with quantitative_data := true } r
      = namePred { f with quantitative_data := false } r := rfl
  simp only [totalPred, hq1, hq0, hql, hcp, hop, hclp, hnp]
  cases presentCell r.quantitative_data <;>
    simp [Bool.and_assoc, Bool.and_comm, Bool.and_left_comm]

/-- C6: a presence flag retains exactly the rows whose field is
non-null, non-empty and not the literal string `null`, relative to the
same query without the flag — for both flags. -/
theorem presence_flags_exact (c : Catalog) (data : List AssayRecord) (f : IedbFilter) :
    filterData c data { f with qualitative_data := true } =
      (filterData c data { f with qualitative_data := false }).filter
        (fun r => presentCell r.qualitative_data)
    ∧ filterData c data { f with quantitative_data := true } =
      (filterData c data { f with quantitative_data := false }).filter
        (fun r => presentCell r.quantitative_data) := by
  constructor
  · rw [filterData_eq_filter, filterData_eq_filter, List.filter_filter]
    exact List.filter_congr fun r _ => totalPred_qual_split c f r
  · rw [filterData_eq_filter, filterData_eq_filter, List.filter_filter]
    exact List.filter_congr fun r _ => totalPred_quant_split c f r

/-- C4: with a chain constraint, the result is exactly the rows surviving
the prior constraints whose name gets exactly one catalog match on the
name-plus-chain query; zero survivors give an empty table. -/
theorem chain_filter_retains_unique_matches (c : Catalog) (data : List AssayRecord)
    (f : IedbFilter) (hchain : chainActive f = true)
    (hql : f.qualitative_data = false) (hqn : f.quantitative_data = false) :
    filterData c data f =
      (orgStep f (classStep f (nameStep f data))).filter (fun r =>
        match r.mhc_name with
        | some nm => (find_all c (some (chainQuery f nm))).length == 1
        | none => false) := by
  unfold filterData
  by_cases hd : data.isEmpty = true
  · rw [if_pos hd, List.isEmpty_iff.mp hd]
    simp [nameStep_eq_filter, classStep_eq_filter, orgStep_eq_filter]
  · rw [if_neg hd]
    simp only [quantStep, hqn, qualStep, hql, Bool.false_eq_true, if_false]
    rw [chainStep_eq_filter]
    refine List.filter_congr fun r _ => ?_
    simp only [chainPred, hchain, if_true]
    cases r.mhc_name with
    | none => rfl
    | some nm => exact chainNameOk_eq_lengthOne c f nm

/-- Witness for C4 at the fixture catalog: a chain-1 constraint keeps
the resolved `HLA-A*02:01` row and drops the unresolved one. -/
theorem chain_filter_retains_unique_matches_witness :
    chainActive { chain_1 := some "HLA-A*02:01" } = true
    ∧ filterData catEx [assayA, assayU] { chain_1 := some "HLA-A*02:01" } =
      (orgStep { chain_1 := some "HLA-A*02:01" }
          (classStep { chain_1 := some "HLA-A*02:01" }
            (nameStep { chain_1 := some "HLA-A*02:01" } [assayA, assayU]))).filter (fun r =>
        match r.mhc_name with
        | some nm =>
          (find_all catEx (some (chainQuery { chain_1 := some "HLA-A*02:01" } nm))).length == 1
        | none => false) :=
  ⟨rfl, chain_filter_retains_unique_matches catEx [assayA, assayU]
    { chain_1 := some "HLA-A*02:01" } rfl rfl rfl⟩

end MhcLab

namespace MhcLab

theorem lookupIdx_absent (o : Nat) (rows : List RawRow) (f : RawRow → Option String) (i : Nat) :
    lookupIdx (chunkCol o rows false f) i = none := by
  unfold lookupIdx chunkCol
  simp only [Bool.false_eq_true, if_false]
  cases hf : List.find? (fun p => p.1 == i)
      ((List.range rows.length).map (fun j => (j, (none : Option String)))) with
  | none => rfl
  | some p =>
    have hp := List.mem_of_find?_eq_some hf
    simp only [List.mem_map] at hp
    obtain ⟨j, _, hj⟩ := hp
    rw [← hj]

theorem selectedRows_fields (cp : ColPresence) (o : Nat) (rows : List RawRow) (sel : RawRow)
    (hs : sel ∈ selectedRows cp o rows) :
    ∃ i, sel.mhcName = lookupIdx (chunkCol o rows cp.hasMhcName RawRow.mhcName) i
      ∧ sel.qualitative = lookupIdx (chunkCol o rows cp.hasQualitative RawRow.qualitative) i
      ∧ sel.quantitative = lookupIdx (chunkCol o rows cp.hasQuantitative RawRow.quantitative) i
      ∧ sel.assayResponse = lookupIdx (chunkCol o rows cp.hasAssayResponse RawRow.assayResponse) i
      ∧ sel.epitope = lookupIdx (chunkCol o rows cp.hasEpitope RawRow.epitope) i := by
  unfold selectedRows at hs
  simp only [List.mem_map] at hs
  obtain ⟨i, _, hi⟩ := hs
  subst hi
  exact ⟨i, rfl, rfl, rfl, rfl, rfl⟩

/-- C5: a mapped source column absent from the header leaves the
corresponding canonical field null in every output row of every chunk,
and processing never aborts. -/
theorem missing_column_fills_null (c : Catalog) (cp : ColPresence) (s : Nat)
    (rows : List RawRow) (r : AssayRecord) (hr : r ∈ parseChunked c cp s rows) :
    (cp.hasMhcName = false → r.mhc_name = none)
    ∧ (cp.hasQualitative = false → r.qualitative_data = none)
    ∧ (cp.hasQuantitative = false → r.quantitative_data = none)
    ∧ (cp.hasAssayResponse = false → r.assay_response = none)
    ∧ (cp.hasEpitope = false → r.epitope = none) := by
  unfold parseChunked at hr
  simp only [List.mem_flatten, List.mem_map] at hr
  obtain ⟨_, ⟨p, hp, rfl⟩, hrin⟩ := hr
  unfold processChunk at hrin
  simp only [List.mem_map] at hrin
  obtain ⟨sel, hsel, rfl⟩ := hrin
  obtain ⟨i, h1, h2, h3, h4, h5⟩ := selectedRows_fields cp p.1 p.2 sel hsel
  refine ⟨?_, ?_, ?_, ?_, ?_⟩
  · intro hcp
    rw [hcp] at h1
    rw [lookupIdx_absent] at h1
    simp [normalizeSel, resolveName, h1]
  · intro hcp
    rw [hcp] at h2
    rw [lookupIdx_absent] at h2
    simp [normalizeSel, h2]
  · intro hcp
    rw [hcp] at h3
    rw [lookupIdx_absent] at h3
    simp [normalizeSel, h3]
  · intro hcp
    rw [hcp] at h4
    rw [lookupIdx_absent] at h4
    simp [normalizeSel, h4]
  · intro hcp
    rw [hcp] at h5
    rw [lookupIdx_absent] at h5
    simp [normalizeSel, h5]

/-- Witness for C5: with the epitope column missing, the produced row
has a null epitope. -/
theorem missing_column_fills_null_witness :
    outA ∈ parseChunked [] cpNoEpi 1 [rowA]
    ∧ cpNoEpi.hasEpitope = false
    ∧ outA.epitope = none :=
  ⟨by decide, rfl,
    (missing_column_fills_null [] cpNoEpi 1 [rowA] outA (by decide)).2.2.2.2 rfl⟩

/-- C3 (failing input): with the epitope column missing, two rows
processed as one chunk give two output rows, but the same two rows at
chunk size one give three — the filler Series of the second chunk is
indexed from zero while the chunk is indexed from its file offset, so
pandas alignment manufactures a phantom all-null row.  Chunking changes
the output, against the chunk-independence claim. -/
theorem chunking_changes_output :
    (parseChunked [] cpNoEpi 1 [rowA, rowB]).length = 2
    ∧ (parseChunked [] cpNoEpi 0 [rowA, rowB]).length = 3
    ∧ parseChunked [] cpNoEpi 1 [rowA, rowB] ≠ parseChunked [] cpNoEpi 0 [rowA, rowB] := by
  decide

end MhcLab

namespace MhcLab

/-- C8 (counterexample): a registry entry whose canonical-name element is
present but empty loads without failing and stores a record whose `name`
is null — the load neither fails nor upholds the non-null-name
invariant. -/
theorem registry_null_name_stored :
    (parseNames [] [entryEmptyName]).2 = none
    ∧ (parseNames [] [entryEmptyName]).1.values.map IedbMhcName.name = [none] := by
  decide

/-- C8 (amended): an entry whose canonical-name element is absent makes
the load raise `AttributeError`, keeping exactly the entries stored
before it; an entry whose name element is present but empty is stored
with a null name without failing. -/
theorem registry_name_handling (d : Catalog) (e : RegistryEntry) (es : List RegistryEntry) :
    (e.displayedRestriction = none → parseNames d (e :: es) = (d, some "AttributeError"))
    ∧ (∀ rid nameElem, e.mhcAlleleRestrictionId = some rid →
        e.displayedRestriction = some nameElem → nameElem.text = none →
        ∃ rec, parseEntry e = Except.ok (rid.text, rec) ∧ rec.name = none) := by
  constructor
  · intro h
    cases hrid : e.mhcAlleleRestrictionId with
    | none => simp [parseNames, parseEntry, hrid]
    | some rid => simp [parseNames, parseEntry, hrid, h]
  · intro rid nameElem hrid hname htext
    refine ⟨{ name := nameElem.text
              mhc_class := optText e.classElem
              chain_1_name := optText e.chain1Name
              chain_2_name := optText e.chain2Name
              aliases := parseAliases e.synonyms
              organism := optText e.organism
              organism_id := optText e.organismNcbiTaxId
              restriction_level := optText e.restrictionLevel }, ?_, htext⟩
    simp [parseEntry, hrid, hname]

/-- Witness for the amended C8: an entry with no name element fails the
load outright. -/
theorem registry_name_handling_witness :
    entryNoName.displayedRestriction = none
    ∧ parseNames [] [entryNoName] = ([], some "AttributeError") :=
  ⟨rfl, (registry_name_handling [] entryNoName []).1 rfl⟩

end MhcLab
